import Mathlib

/-!
A verification development for a command-line contact manager
(`main.py`): validated fields (name / 10-digit phone / DD.MM.YYYY
birthday), contact records with phone lists, an address book mapping
names to records, and an upcoming-birthday query with weekend
roll-forward.  Python structures are shallowly embedded: records are
structures, the address book is an association list with dict
semantics (keys compare by string value, as `Name.__eq__`/`__hash__`
delegate to the underlying string), mutation is explicit state
passing, `print` diagnostics and return values are reified into result
types, and Python `datetime.date` is a proleptic-Gregorian date
structure with the same ordinal/weekday arithmetic.
-/

/-! ## Dates (the fragment of `datetime` the program uses) -/

/-- A proleptic Gregorian calendar date, as Python's `datetime.date`. -/
structure Date where
  year : Nat
  month : Nat
  day : Nat
deriving DecidableEq, Repr

/-- Gregorian leap-year test (as `calendar.isleap` / `datetime`). -/
def isLeap (y : Nat) : Bool :=
  (y % 4 == 0 && y % 100 != 0) || (y % 400 == 0)

/-- Number of days in month `m` of year `y`. -/
def daysInMonth (y m : Nat) : Nat :=
  if m == 2 then (if isLeap y then 29 else 28)
  else if m == 4 || m == 6 || m == 9 || m == 11 then 30
  else 31

/-- Validity of a date, as enforced by `datetime.date`'s constructor
(and hence by `date.replace`). -/
def Date.valid (d : Date) : Bool :=
  1 ≤ d.year && 1 ≤ d.month && d.month ≤ 12 && 1 ≤ d.day && d.day ≤ daysInMonth d.year d.month

/-- Days in all years strictly before year `y` (proleptic Gregorian). -/
def daysBeforeYear (y : Nat) : Nat :=
  let n := y - 1
  365 * n + n / 4 - n / 100 + n / 400

/-- Days in the months of year `y` strictly before month `m`. -/
def daysBeforeMonth (y m : Nat) : Nat :=
  (List.range (m - 1)).foldl (fun acc i => acc + daysInMonth y (i + 1)) 0

/-- `date.toordinal()`: day 1 is January 1 of year 1. -/
def Date.ordinal (d : Date) : Nat :=
  daysBeforeYear d.year + daysBeforeMonth d.year d.month + d.day

/-- `date.weekday()`: Monday = 0, …, Sunday = 6.  January 1 of year 1
is a Monday in the proleptic Gregorian calendar. -/
def Date.weekday (d : Date) : Nat :=
  (d.ordinal + 6) % 7

/-- The day after `d` (the successor date). -/
def Date.nextDay (d : Date) : Date :=
  if d.day < daysInMonth d.year d.month then ⟨d.year, d.month, d.day + 1⟩
  else if d.month < 12 then ⟨d.year, d.month + 1, 1⟩
  else ⟨d.year + 1, 1, 1⟩

/-- `d + timedelta(n)` for a nonnegative number of days. -/
def Date.addDays (d : Date) : Nat → Date
  | 0 => d
  | n + 1 => (Date.addDays d n).nextDay

/-- `d.replace(year=y)`: keeps month and day, replaces the year;
Python raises `ValueError` when the result is not a valid date
(February 29 in a non-leap target year), modelled as `none`. -/
def Date.replaceYear (d : Date) (y : Nat) : Option Date :=
  let d2 : Date := ⟨y, d.month, d.day⟩
  if d2.valid then some d2 else none

/-- Zero-padded two-digit numeral, as `strftime`'s `%d` / `%m`. -/
def pad2 (n : Nat) : String :=
  if n < 10 then "0" ++ toString n else toString n

/-- Zero-padded four-digit numeral, as `strftime`'s `%Y`. -/
def pad4 (n : Nat) : String :=
  if n < 10 then "000" ++ toString n
  else if n < 100 then "00" ++ toString n
  else if n < 1000 then "0" ++ toString n
  else toString n

/-- `d.strftime("%d.%m.%Y")`. -/
def Date.formatDMY (d : Date) : String :=
  pad2 d.day ++ "." ++ pad2 d.month ++ "." ++ pad4 d.year

/-! ## Validated fields -/

/-- `str.isdigit()` restricted to ASCII, as the phone format check
uses it.  Python's `len` counts code points, so the string is viewed
as its character list. -/
def isDigitStr (s : String) : Bool :=
  s.data.length > 0 && s.data.all Char.isDigit

/-- The check applied by the `phone_validation` decorator to each
positional argument: `arg.isdigit() and len(arg) == 10`. -/
def validPhone (s : String) : Bool :=
  isDigitStr s && s.data.length == 10

/-- `str.isalpha()`: nonempty and all alphabetic, as the
`name_validation` decorator uses it. -/
def isAlphaStr (s : String) : Bool :=
  s.data.length > 0 && s.data.all Char.isAlpha

/-- `phone_validation`'s scan over the positional arguments: the first
argument failing the 10-digit check, if any.  When it exists the
decorator prints `"{arg} is in incorrect format"` and returns `None`
without calling the wrapped method. -/
def checkPhones (args : List String) : Option String :=
  args.find? (fun a => !(validPhone a))

/-! ## Record -/

/-- `Record`: one contact's name, ordered phone list, optional
birthday.  `Phone` and `Name` wrap strings and compare by string
value, so phones are embedded as their string values and the name as
its string. -/
structure Record where
  name : String
  phones : List String
  birthday : Option Date
deriving DecidableEq, Repr

/-- `Record(name)`: constructs the `Name` field (whose
`name_validation` decorator prints a diagnostic when the string is not
alphabetic but constructs the object regardless), an empty phone list
and no birthday.  The boolean records whether the name-format
diagnostic was printed. -/
def Record.create (name : String) : Record × Bool :=
  ({ name := name, phones := [], birthday := none }, !(isAlphaStr name))

/-- Result of `Record.add_phone`: either the `phone_validation`
decorator rejected an argument (diagnostic printed, body skipped), or
the body ran (returning `None` whether it appended or found a
duplicate). -/
inductive AddResult
  | invalidArg (arg : String)
  | done
deriving DecidableEq, Repr

/-- `Record.add_phone(phone)` (decorated with `phone_validation`):
returns without appending when an equal phone value already exists,
otherwise appends `Phone(phone)`. -/
def Record.add_phone (r : Record) (phone : String) : Record × AddResult :=
  match checkPhones [phone] with
  | some bad => (r, .invalidArg bad)
  | none =>
    if r.phones.any (fun ph => ph == phone) then (r, .done)
    else ({ r with phones := r.phones ++ [phone] }, .done)

/-- Result of `Record.find_phone`: decorator rejection, the matching
`Phone` object, or the printed "No such phone here, wanna add it?"
report (the body returns `None` in that case). -/
inductive FindResult
  | invalidArg (arg : String)
  | found (phone : String)
  | notFound
deriving DecidableEq, Repr

/-- `Record.find_phone(phone)` (decorated with `phone_validation`):
`self.phones.index(phone)` locates the first phone whose string value
equals `phone` and the element at that index is returned; on
`ValueError` a not-found message is printed. -/
def Record.find_phone (r : Record) (phone : String) : FindResult :=
  match checkPhones [phone] with
  | some bad => .invalidArg bad
  | none =>
    match r.phones.find? (fun ph => ph == phone) with
    | some p => .found p
    | none => .notFound

/-- Result of `Record.edit_phone`: decorator rejection, a successful
in-place edit (prints "Number edited", returns `None`), or the
`return True` taken when the old phone is absent. -/
inductive EditResult
  | invalidArg (arg : String)
  | edited
  | notFound
deriving DecidableEq, Repr

/-- `Record.edit_phone(old, new)` (decorated with `phone_validation`):
when `old` is present by value equality, overwrites the phone at its
first index with `Phone(new)`; otherwise returns `True`. -/
def Record.edit_phone (r : Record) (old_phone new_phone : String) : Record × EditResult :=
  match checkPhones [old_phone, new_phone] with
  | some bad => (r, .invalidArg bad)
  | none =>
    if r.phones.contains old_phone then
      ({ r with phones := r.phones.set (r.phones.indexOf old_phone) new_phone }, .edited)
    else (r, .notFound)

/-- Result of `Record.delete_phone`: decorator rejection, successful
removal (prints "Success, phone removed"), or the printed "No such
phone found in the record" on `ValueError`. -/
inductive DeleteResult
  | invalidArg (arg : String)
  | removed
  | notFound
deriving DecidableEq, Repr

/-- `Record.delete_phone(phone)` (decorated with `phone_validation`):
`self.phones.remove(phone)` removes the first phone equal to `phone`
by value; `ValueError` when absent is reported. -/
def Record.delete_phone (r : Record) (phone : String) : Record × DeleteResult :=
  match checkPhones [phone] with
  | some bad => (r, .invalidArg bad)
  | none =>
    if r.phones.contains phone then
      ({ r with phones := r.phones.erase phone }, .removed)
    else (r, .notFound)

/-! ## AddressBook

`AddressBook` extends `UserDict`; its `data` dict maps `Name` keys to
`Record`s.  `Name.__hash__` and `__eq__` delegate to the wrapped
string, so the dict behaves as a string-keyed map: embedded as an
association list in insertion order, where assignment to an existing
key overwrites in place and assignment to a fresh key appends. -/

/-- The address book's backing dict, in insertion order. -/
abbrev Book := List (String × Record)

/-- `self.data[key] = record`: dict assignment (overwrite in place if
the key is present, else append). -/
def dictInsert (key : String) (v : Record) (book : Book) : Book :=
  match book with
  | [] => [(key, v)]
  | (k, r) :: rest =>
    if k == key then (key, v) :: rest else (k, r) :: dictInsert key v rest

/-- Dict lookup by key (first — and in a real dict only — match). -/
def dictGet (key : String) (book : Book) : Option Record :=
  match book with
  | [] => none
  | (k, r) :: rest => if k == key then some r else dictGet key rest

/-- `del self.data[key]`: removes the entry with the key. -/
def dictDel (key : String) (book : Book) : Book :=
  match book with
  | [] => []
  | (k, r) :: rest => if k == key then rest else (k, r) :: dictDel key rest

/-- `AddressBook.add_record(record)`: `self.data[record.name] = record`. -/
def AddressBook.add_record (book : Book) (record : Record) : Book :=
  dictInsert record.name record book

/-- `AddressBook.find(entered_name)`: returns the record when the name
is a key (printing "Fetching …"), else prints "Who is this …?" and
returns `None`. -/
def AddressBook.find (book : Book) (entered_name : String) : Option Record :=
  dictGet entered_name book

/-- Outcome of `AddressBook.delete`: which message was printed. -/
inductive BookDeleteMsg
  | deleting (name : String)
  | doesNotExist (name : String)
deriving DecidableEq, Repr

/-- `AddressBook.delete(name)`: deletes the entry and prints
"Deleting {name}..." when present; otherwise prints
"{name} does not exist".  No exception in either case. -/
def AddressBook.delete (book : Book) (name : String) : Book × BookDeleteMsg :=
  if (dictGet name book).isSome then (dictDel name book, .deleting name)
  else (book, .doesNotExist name)

/-! ## Command layer -/

/-- `add_contact(args, book)` with `args = (name, phone)`: finds or
creates the record (message "Contact added." / "Contact updated."),
then adds the phone when non-empty.  The mutated record is an alias
into the book, so the stored entry reflects `add_phone`.  The boolean
is the name-format diagnostic printed by `name_validation` when a new
`Record` (hence a new `Name`) is constructed. -/
def add_contact (name phone : String) (book : Book) : Book × String × Bool :=
  match AddressBook.find book name with
  | some record =>
    let record2 := if phone.length > 0 then (Record.add_phone record phone).1 else record
    (dictInsert name record2 book, "Contact updated.", false)
  | none =>
    let (record, diag) := Record.create name
    let book2 := AddressBook.add_record book record
    let record2 := if phone.length > 0 then (Record.add_phone record phone).1 else record
    (dictInsert name record2 book2, "Contact added.", diag)

/-- `delete_contact(name, book)`: the body is
`for name in book.keys(): book.delete(name); return f"Contact {name} deleted."`
— the loop variable shadows the `name` parameter, so the first key of
the book (when any) is deleted and named in the message, and an empty
book falls through returning `None`. -/
def delete_contact (name : String) (book : Book) : Book × Option String :=
  match book with
  | [] => (book, none)
  | (k, _) :: _ =>
    ((AddressBook.delete book k).1, some ("Contact " ++ k ++ " deleted."))

/-- Outcome of `change_contact`. -/
inductive ChangeOutcome
  | noPhones
  | updated (old_phone new_phone : String)
  | keyError
  | badChoice
deriving DecidableEq, Repr

/-- `change_contact(args, book)` with `args = (name, new_phone)`:
finds the record (raising `KeyError` when absent, `.keyError`); with
more than one phone the user picks an index interactively (embedded as
the injected `choose`; an out-of-range pick raises, `.badChoice`) and
that phone is edited; with one or zero phones the `else` branch
returns "No phones to edit" (`.noPhones`).  The record is an alias
into the book, so an edit updates the stored entry. -/
def change_contact (choose : Nat) (name new_phone : String) (book : Book) :
    Book × ChangeOutcome :=
  match AddressBook.find book name with
  | none => (book, .keyError)
  | some record =>
    if record.phones.length > 1 then
      match record.phones.get? choose with
      | none => (book, .badChoice)
      | some phone =>
        let record2 := (Record.edit_phone record phone new_phone).1
        (dictInsert name record2 book, .updated phone new_phone)
    else (book, .noPhones)

/-! ## Upcoming birthdays -/

/-- The year-in-place candidate occurrence used by
`get_upcoming_birthdays`:
`record.birthday.value.replace(year=today.year)`, replaced by the
next year's occurrence when strictly before today; `none` embeds the
`ValueError` that `replace` raises on February 29 in a non-leap
target year. -/
def nextOccurrence (today : Date) (b : Date) : Option Date :=
  match b.replaceYear today.year with
  | none => none
  | some b1 =>
    if b1.ordinal < today.ordinal then b.replaceYear (today.year + 1) else some b1

/-- One iteration of the `get_upcoming_birthdays` loop for a record:
`ok none` when the record has no birthday or its occurrence is more
than `days` days away (the record is skipped), `ok (some s)` when a
reminder string is added, `error ()` when the date replacement raises. -/
def upcomingEntry (today : Date) (days : Nat) (r : Record) : Except Unit (Option String) :=
  match r.birthday with
  | none => .ok none
  | some b =>
    match nextOccurrence today b with
    | none => .error ()
    | some birthday =>
      if (birthday.ordinal : Int) - (today.ordinal : Int) > (days : Int) then .ok none
      else if birthday.weekday < 5 then .ok (some birthday.formatDMY)
      else if birthday.weekday == 5 then .ok (some ((birthday.addDays 2).formatDMY))
      else .ok (some ((birthday.addDays 1).formatDMY))

/-- `get_upcoming_birthdays(self, days=7)`: iterates over the book in
insertion order, building the `bdays` mapping from name to formatted
reminder date; a `ValueError` from the year replacement propagates
(embedded as `Except.error`).  `today` is passed explicitly in place
of `datetime.today().date()`. -/
def get_upcoming_birthdays (today : Date) (days : Nat) (book : Book) :
    Except Unit (List (String × String)) :=
  match book with
  | [] => .ok []
  | (name, r) :: rest =>
    match upcomingEntry today days r with
    | .error e => .error e
    | .ok none => get_upcoming_birthdays today days rest
    | .ok (some s) =>
      match get_upcoming_birthdays today days rest with
      | .error e => .error e
      | .ok m => .ok ((name, s) :: m)

/-- Lookup in the result mapping of `get_upcoming_birthdays`. -/
def bdaysGet (key : String) (m : List (String × String)) : Option String :=
  match m with
  | [] => none
  | (k, s) :: rest => if k == key then some s else bdaysGet key rest

/-! ## Helper lemmas -/

/-- When every argument passes the 10-digit check, the decorator scan
accepts. -/
theorem checkPhones_singleton_none {p : String} (h : validPhone p = true) :
    checkPhones [p] = none := by
  simp [checkPhones, h]

theorem checkPhones_pair_none {p q : String} (hp : validPhone p = true)
    (hq : validPhone q = true) : checkPhones [p, q] = none := by
  simp [checkPhones, hp, hq]

/-- `add_phone` never changes the name or birthday fields. -/
theorem add_phone_fields (r : Record) (p : String) :
    ((Record.add_phone r p).1).name = r.name ∧
    ((Record.add_phone r p).1).birthday = r.birthday := by
  unfold Record.add_phone
  cases checkPhones [p] <;> simp
  split <;> simp

/-- Lookup after inserting at the same key. -/
theorem dictGet_dictInsert_self (key : String) (v : Record) (book : Book) :
    dictGet key (dictInsert key v book) = some v := by
  induction book with
  | nil => simp [dictInsert, dictGet]
  | cons h t ih =>
    obtain ⟨k, r⟩ := h
    by_cases hk : k = key <;> simp [dictInsert, dictGet, hk, ih]


/-- `find?` with a value-equality predicate returns the value itself
when it is a member. -/
theorem find?_beq_self {l : List String} {p : String} (h : p ∈ l) :
    l.find? (fun x => x == p) = some p := by
  induction l with
  | nil => cases h
  | cons a t ih =>
    by_cases ha : a = p
    · subst ha; simp [List.find?]
    · have hne : (a == p) = false := beq_false_of_ne ha
      rw [List.find?, hne]
      rcases List.mem_cons.mp h with h1 | h2
      · exact absurd h1.symm ha
      · exact ih h2

/-- C7. Every phone-accepting `Record` operation validates each
positional argument as exactly 10 digits; when an argument fails, the
wrapped body is never invoked: the record is returned unchanged and
the result is the decorator's diagnostic for the offending argument
(the first failing one, in positional order). -/
theorem phone_validation_aborts_on_invalid
    (r : Record) (p old_p new_p : String)
    (hp : validPhone p = false)
    (he : validPhone old_p = false ∨ validPhone new_p = false) :
    Record.add_phone r p = (r, .invalidArg p) ∧
    Record.find_phone r p = .invalidArg p ∧
    Record.delete_phone r p = (r, .invalidArg p) ∧
    Record.edit_phone r old_p new_p =
      (r, .invalidArg (if validPhone old_p then new_p else old_p)) := by
  refine ⟨?_, ?_, ?_, ?_⟩
  · simp [Record.add_phone, checkPhones, hp]
  · simp [Record.find_phone, checkPhones, hp]
  · simp [Record.delete_phone, checkPhones, hp]
  · by_cases ho : validPhone old_p = true
    · have hn : validPhone new_p = false := by
        rcases he with h | h
        · rw [ho] at h; cases h
        · exact h
      simp [Record.edit_phone, checkPhones, ho, hn]
    · have ho' : validPhone old_p = false := by
        cases hov : validPhone old_p
        · rfl
        · exact absurd hov ho
      simp [Record.edit_phone, checkPhones, ho']

/-- Witness for C7 at a concrete record and concrete malformed
arguments. -/
theorem phone_validation_aborts_on_invalid_witness :
    validPhone "12a4567890" = false ∧
    (validPhone "123" = false ∨ validPhone "1234567890" = false) ∧
    (Record.add_phone ⟨"Ann", ["1234567890"], none⟩ "12a4567890" =
        (⟨"Ann", ["1234567890"], none⟩, .invalidArg "12a4567890") ∧
      Record.find_phone ⟨"Ann", ["1234567890"], none⟩ "12a4567890" = .invalidArg "12a4567890" ∧
      Record.delete_phone ⟨"Ann", ["1234567890"], none⟩ "12a4567890" =
        (⟨"Ann", ["1234567890"], none⟩, .invalidArg "12a4567890") ∧
      Record.edit_phone ⟨"Ann", ["1234567890"], none⟩ "123" "1234567890" =
        (⟨"Ann", ["1234567890"], none⟩,
          .invalidArg (if validPhone "123" then "1234567890" else "123"))) :=
  ⟨by decide, Or.inl (by decide),
    phone_validation_aborts_on_invalid ⟨"Ann", ["1234567890"], none⟩ "12a4567890" "123"
      "1234567890" (by decide) (Or.inl (by decide))⟩

/-- C6. `edit_phone(old, new)` with two well-formed phone strings and
`old` absent from the record (by string value) leaves the record — in
particular its phone list — unchanged and reports the not-found
condition (the body's distinguished `return True`, as opposed to the
success path's in-place edit). -/
theorem edit_phone_absent_reports_not_found
    (r : Record) (old_p new_p : String)
    (h1 : validPhone old_p = true) (h2 : validPhone new_p = true)
    (h3 : old_p ∉ r.phones) :
    Record.edit_phone r old_p new_p = (r, .notFound) := by
  have hc : r.phones.contains old_p = false := by
    cases hcv : r.phones.contains old_p
    · rfl
    · exact absurd (List.mem_of_elem_eq_true hcv) h3
  simp [Record.edit_phone, checkPhones_pair_none h1 h2, hc]
  exact h3

/-- Witness for C6 at a concrete record and phones. -/
theorem edit_phone_absent_reports_not_found_witness :
    validPhone "1234567890" = true ∧ validPhone "0987654321" = true ∧
    "1234567890" ∉ (["5550001111"] : List String) ∧
    Record.edit_phone ⟨"Ann", ["5550001111"], none⟩ "1234567890" "0987654321" =
      (⟨"Ann", ["5550001111"], none⟩, .notFound) :=
  ⟨by decide, by decide, by decide,
    edit_phone_absent_reports_not_found ⟨"Ann", ["5550001111"], none⟩ "1234567890" "0987654321"
      (by decide) (by decide) (by decide)⟩

/-- `find_phone` on a record containing the queried value reports a
match with that value. -/
theorem find_phone_mem (r : Record) (p : String) (h : validPhone p = true)
    (hmem : p ∈ r.phones) : Record.find_phone r p = .found p := by
  simp [Record.find_phone, checkPhones_singleton_none h, find?_beq_self hmem]

/-- After `add_phone p`, the value `p` is in the phone list. -/
theorem mem_add_phone (r : Record) (p : String) (h : validPhone p = true) :
    p ∈ (Record.add_phone r p).1.phones := by
  cases hany : r.phones.any (fun ph => ph == p) with
  | false => simp [Record.add_phone, checkPhones_singleton_none h, hany]
  | true =>
    have hmem : p ∈ r.phones := by
      rcases List.any_eq_true.mp hany with ⟨x, hx, hbeq⟩
      rcases eq_of_beq hbeq
      exact hx
    simp [Record.add_phone, checkPhones_singleton_none h, hany, hmem]

/-- C9. For any record and any well-formed 10-digit phone string,
`add_phone` followed by `find_phone` with the same string returns the
matching phone, never the not-found report. -/
theorem add_then_find_phone (r : Record) (p : String) (h : validPhone p = true) :
    Record.find_phone (Record.add_phone r p).1 p = .found p :=
  find_phone_mem _ p h (mem_add_phone r p h)

/-- Witness for C9 at a concrete record and phone. -/
theorem add_then_find_phone_witness :
    validPhone "1234567890" = true ∧
    Record.find_phone (Record.add_phone ⟨"Ann", [], none⟩ "1234567890").1 "1234567890" =
      .found "1234567890" :=
  ⟨by decide, add_then_find_phone ⟨"Ann", [], none⟩ "1234567890" (by decide)⟩

/-- `add_phone` preserves distinctness of the phone list: it appends
only when no equal value is present. -/
theorem add_phone_nodup (r : Record) (q : String) (h : r.phones.Nodup) :
    (Record.add_phone r q).1.phones.Nodup := by
  unfold Record.add_phone
  split
  · simpa using h
  · split
    · simpa using h
    · rename_i hany
      have hq : q ∉ r.phones := by
        intro hmem
        exact hany (List.any_eq_true.mpr ⟨q, hmem, by simp⟩)
      simp only []
      rw [List.nodup_append]
      exact ⟨h, List.nodup_singleton q, by simp [List.disjoint_singleton]; exact hq⟩

/-- `delete_phone` preserves distinctness of the phone list. -/
theorem delete_phone_nodup (r : Record) (q : String) (h : r.phones.Nodup) :
    (Record.delete_phone r q).1.phones.Nodup := by
  unfold Record.delete_phone
  split
  · simpa using h
  · split
    · simpa using (h.erase q)
    · simpa using h

/-- C3 counterexample. The distinct-phones invariant is *not*
preserved by `edit_phone`: starting from a record whose two phones are
distinct and well-formed, editing the first phone to the value of the
second leaves two equal phone strings in the list, so the claim that
every record operation preserves the invariant fails at this input. -/
theorem edit_phone_duplicate_counterexample :
    (["1234567890", "0987654321"] : List String).Nodup ∧
    validPhone "1234567890" = true ∧ validPhone "0987654321" = true ∧
    (Record.edit_phone ⟨"A", ["1234567890", "0987654321"], none⟩ "1234567890"
        "0987654321").1.phones = ["0987654321", "0987654321"] ∧
    ¬ (Record.edit_phone ⟨"A", ["1234567890", "0987654321"], none⟩ "1234567890"
        "0987654321").1.phones.Nodup :=
  ⟨by decide, by decide, by decide, by decide, by decide⟩

/-- C3 as amended. The distinct-phones invariant holds for a freshly
constructed record, is preserved by `add_phone` and `delete_phone`,
and inserting the same well-formed phone twice leaves exactly one
occurrence; `edit_phone` is dropped from the preservation list, as it
can duplicate an existing value (see the counterexample). -/
theorem record_phone_nodup_amended (name p q : String) (r : Record)
    (hnd : r.phones.Nodup) (hp : validPhone p = true) :
    (Record.create name).1.phones.Nodup ∧
    (Record.add_phone r q).1.phones.Nodup ∧
    (Record.delete_phone r q).1.phones.Nodup ∧
    (Record.add_phone (Record.add_phone r p).1 p).1.phones.count p = 1 := by
  refine ⟨by simp [Record.create], add_phone_nodup r q hnd, delete_phone_nodup r q hnd, ?_⟩
  have hmem : p ∈ (Record.add_phone r p).1.phones := mem_add_phone r p hp
  have hnd1 : (Record.add_phone r p).1.phones.Nodup := add_phone_nodup r p hnd
  generalize hgen : (Record.add_phone r p).1 = r1 at hmem hnd1 ⊢
  have hany : r1.phones.any (fun ph => ph == p) = true :=
    List.any_eq_true.mpr ⟨p, hmem, by simp⟩
  have hcount := List.count_eq_one_of_mem hnd1 hmem
  simp [Record.add_phone, checkPhones_singleton_none hp, hany, hmem, hcount]

/-- Witness for the amended C3 at a concrete record and phones. -/
theorem record_phone_nodup_amended_witness :
    (["5550001111"] : List String).Nodup ∧ validPhone "1234567890" = true ∧
    ((Record.create "Ann").1.phones.Nodup ∧
      (Record.add_phone ⟨"Ann", ["5550001111"], none⟩ "0987654321").1.phones.Nodup ∧
      (Record.delete_phone ⟨"Ann", ["5550001111"], none⟩ "0987654321").1.phones.Nodup ∧
      (Record.add_phone
          (Record.add_phone ⟨"Ann", ["5550001111"], none⟩ "1234567890").1
          "1234567890").1.phones.count "1234567890" = 1) :=
  ⟨by decide, by decide,
    record_phone_nodup_amended "Ann" "1234567890" "0987654321" ⟨"Ann", ["5550001111"], none⟩
      (by decide) (by decide)⟩

/-- C1. Evaluation of `change_contact` at a record with exactly one
phone: contrary to the documented intent (one phone is substituted
directly), the `else` branch of `len(phones) > 1` also captures the
one-phone case, so the code answers "No phones to edit" and performs
no substitution even though there is a phone to edit and the new
phone is well-formed. -/
theorem change_contact_one_phone_bug :
    (Record.mk "Ann" ["1234567890"] none).phones.length = 1 ∧
    validPhone "0987654321" = true ∧
    change_contact 0 "Ann" "0987654321" [("Ann", ⟨"Ann", ["1234567890"], none⟩)] =
      ([("Ann", ⟨"Ann", ["1234567890"], none⟩)], ChangeOutcome.noPhones) :=
  ⟨by decide, by decide, by decide⟩

/-- C2. Evaluation of `delete_contact` at a concrete book: asked to
delete "Bob", it deletes "Alice" — the first key of the book — because
the loop variable shadows the `name` parameter, and reports "Contact
Alice deleted.".  The record under the requested name survives. -/
theorem delete_contact_wrong_record_bug :
    delete_contact "Bob" [("Alice", ⟨"Alice", [], none⟩), ("Bob", ⟨"Bob", [], none⟩)] =
      ([("Bob", ⟨"Bob", [], none⟩)], some "Contact Alice deleted.") ∧
    dictGet "Bob"
        (delete_contact "Bob"
          [("Alice", ⟨"Alice", [], none⟩), ("Bob", ⟨"Bob", [], none⟩)]).1 =
      some ⟨"Bob", [], none⟩ ∧
    dictGet "Alice"
        (delete_contact "Bob"
          [("Alice", ⟨"Alice", [], none⟩), ("Bob", ⟨"Bob", [], none⟩)]).1 = none :=
  ⟨by decide, by decide, by decide⟩

/-- C8. `get_upcoming_birthdays` has a reachable failing input: for a
record whose birthday is February 29 (of the leap year 2000), with
today in the non-leap year 2023, the in-place year replacement
`birthday.replace(year=2023)` produces the invalid date 29.02.2023 and
raises instead of yielding a reminder date — the whole query fails
rather than returning a mapping. -/
theorem get_upcoming_birthdays_feb29_failure :
    isLeap 2023 = false ∧
    (Date.mk 2000 2 29).valid = true ∧
    Date.replaceYear ⟨2000, 2, 29⟩ 2023 = none ∧
    get_upcoming_birthdays ⟨2023, 6, 10⟩ 7
        [("Leap", ⟨"Leap", [], some ⟨2000, 2, 29⟩⟩)] = .error () :=
  ⟨by decide, by decide, by decide, rfl⟩

/-- C10. Name validation never prevents record creation: for any
non-empty `name` (alphabetic or not) and any `phone`, `add_contact`
leaves a record stored under `name`; when the name was absent, the
stored record is freshly created with that name and no birthday, the
"Contact added." message is returned, and the `name_validation`
diagnostic is printed exactly when the name fails `isalpha`. -/
theorem name_validation_never_blocks_creation
    (book : Book) (name phone : String) (h : name ≠ "") :
    (dictGet name (add_contact name phone book).1).isSome = true ∧
    (AddressBook.find book name = none →
      Option.map Record.name (dictGet name (add_contact name phone book).1) = some name ∧
      Option.map Record.birthday (dictGet name (add_contact name phone book).1) = some none ∧
      (add_contact name phone book).2.1 = "Contact added." ∧
      (add_contact name phone book).2.2 = !(isAlphaStr name)) := by
  cases hfind : AddressBook.find book name with
  | some rec =>
    constructor
    · simp [add_contact, hfind, dictGet_dictInsert_self]
    · intro hn
      simp at hn
  | none =>
    have hget : dictGet name (add_contact name phone book).1 =
        some (if phone.length > 0
          then (Record.add_phone (Record.create name).1 phone).1
          else (Record.create name).1) := by
      by_cases hph : phone.length > 0 <;>
        simp [add_contact, hfind, Record.create, AddressBook.add_record, hph,
          dictGet_dictInsert_self]
    constructor
    · rw [hget]; rfl
    · intro _
      refine ⟨?_, ?_, ?_, ?_⟩
      · rw [hget]
        by_cases hph : phone.length > 0 <;>
          simp [hph, Record.create, add_phone_fields]
      · rw [hget]
        by_cases hph : phone.length > 0 <;>
          simp [hph, Record.create, add_phone_fields]
      · simp [add_contact, hfind]
      · simp [add_contact, hfind, Record.create]

/-- Witness for C10: the non-alphabetic, non-empty name "Ann1" on the
empty book — the record is created and stored, with the diagnostic
printed. -/
theorem name_validation_never_blocks_creation_witness :
    ("Ann1" : String) ≠ "" ∧
    ((dictGet "Ann1" (add_contact "Ann1" "0987654321" []).1).isSome = true ∧
      (AddressBook.find [] "Ann1" = none →
        Option.map Record.name (dictGet "Ann1" (add_contact "Ann1" "0987654321" []).1) =
          some "Ann1" ∧
        Option.map Record.birthday (dictGet "Ann1" (add_contact "Ann1" "0987654321" []).1) =
          some none ∧
        (add_contact "Ann1" "0987654321" []).2.1 = "Contact added." ∧
        (add_contact "Ann1" "0987654321" []).2.2 = !(isAlphaStr "Ann1"))) :=
  ⟨by decide, name_validation_never_blocks_creation [] "Ann1" "0987654321" (by decide)⟩

/-- Any name in the result mapping of `get_upcoming_birthdays` is a
key of the book. -/
theorem bdaysGet_some_mem (today : Date) (days : Nat) :
    ∀ (book : Book) (m : List (String × String)) (name s : String),
      get_upcoming_birthdays today days book = .ok m →
      bdaysGet name m = some s → name ∈ book.map Prod.fst := by
  intro book
  induction book with
  | nil =>
    intro m name s hok hget
    simp only [get_upcoming_birthdays] at hok
    cases hok
    simp [bdaysGet] at hget
  | cons hd rest ih =>
    obtain ⟨k, r⟩ := hd
    intro m name s hok hget
    simp only [get_upcoming_birthdays] at hok
    cases he : upcomingEntry today days r with
    | error e => rw [he] at hok; cases hok
    | ok t =>
      rw [he] at hok
      cases t with
      | none =>
        have := ih m name s hok hget
        simp [this]
      | some s0 =>
        cases hrest : get_upcoming_birthdays today days rest with
        | error e => rw [hrest] at hok; cases hok
        | ok m2 =>
          rw [hrest] at hok
          cases hok
          by_cases hk : k = name
          · simp [hk]
          · have hb : (k == name) = false := beq_false_of_ne hk
            simp [bdaysGet, hb] at hget
            have := ih m2 name s hrest hget
            simp [this]

/-- If the whole query succeeds, the loop body succeeded on every
record of the book. -/
theorem upcomingEntry_ok_of_book_ok (today : Date) (days : Nat) :
    ∀ (book : Book) (m : List (String × String)) (name : String) (r : Record),
      get_upcoming_birthdays today days book = .ok m →
      dictGet name book = some r →
      ∃ t, upcomingEntry today days r = .ok t := by
  intro book
  induction book with
  | nil => intro m name r _ hget; simp [dictGet] at hget
  | cons hd rest ih =>
    obtain ⟨k, r0⟩ := hd
    intro m name r hok hget
    simp only [get_upcoming_birthdays] at hok
    cases he : upcomingEntry today days r0 with
    | error e => rw [he] at hok; cases hok
    | ok t =>
      rw [he] at hok
      by_cases hk : k = name
      · have hr : r0 = r := by
          subst hk
          simp [dictGet] at hget
          exact hget
        exact ⟨t, hr ▸ he⟩
      · have hb : (k == name) = false := beq_false_of_ne hk
        simp [dictGet, hb] at hget
        cases t with
        | none => exact ih m name r hok hget
        | some s0 =>
          cases hrest : get_upcoming_birthdays today days rest with
          | error e => rw [hrest] at hok; cases hok
          | ok m2 => exact ih m2 name r hrest hget

/-- When the book's keys are distinct (as they always are in a Python
dict) and the query succeeds, the result's entry for a name is exactly
what the loop body produced for that name's record. -/
theorem bdaysGet_of_entry (today : Date) (days : Nat) :
    ∀ (book : Book) (m : List (String × String)) (name : String) (r : Record)
      (t : Option String),
      (book.map Prod.fst).Nodup →
      get_upcoming_birthdays today days book = .ok m →
      dictGet name book = some r →
      upcomingEntry today days r = .ok t →
      bdaysGet name m = t := by
  intro book
  induction book with
  | nil => intro m name r t _ _ hget _; simp [dictGet] at hget
  | cons hd rest ih =>
    obtain ⟨k, r0⟩ := hd
    intro m name r t hnd hok hget hent
    rw [List.map_cons, List.nodup_cons] at hnd
    simp only [get_upcoming_birthdays] at hok
    cases he : upcomingEntry today days r0 with
    | error e => rw [he] at hok; cases hok
    | ok t0 =>
      rw [he] at hok
      by_cases hk : k = name
      · have hr : r0 = r := by
          subst hk
          simp [dictGet] at hget
          exact hget
        have ht : t0 = t := by
          rw [hr, hent] at he
          exact (Except.ok.inj he).symm
        subst ht
        have hnotin : name ∈ rest.map Prod.fst → False := by
          intro hmemk
          exact hnd.1 (hk ▸ hmemk)
        cases t0 with
        | none =>
          cases hbg : bdaysGet name m with
          | none => rfl
          | some s => exact absurd (bdaysGet_some_mem today days rest m name s hok hbg) hnotin
        | some s0 =>
          cases hrest : get_upcoming_birthdays today days rest with
          | error e => rw [hrest] at hok; cases hok
          | ok m2 =>
            rw [hrest] at hok
            cases hok
            simp [bdaysGet, hk]
      · have hb : (k == name) = false := beq_false_of_ne hk
        simp [dictGet, hb] at hget
        cases t0 with
        | none => exact ih m name r t hnd.2 hok hget hent
        | some s0 =>
          cases hrest : get_upcoming_birthdays today days rest with
          | error e => rw [hrest] at hok; cases hok
          | ok m2 =>
            rw [hrest] at hok
            cases hok
            have := ih m2 name r t hnd.2 hrest hget hent
            simp [bdaysGet, hb, this]

/-- C4. For a record of the book whose birthday's next occurrence
`occ` was computed and lies within the window, the reminder date
returned under that record's name is `occ` shifted by the weekend
roll-forward rule — plus 2 days on Saturday (`weekday == 5`), plus 1
day on Sunday (`weekday == 6`), unchanged on Monday–Friday — and is
formatted as DD.MM.YYYY. -/
theorem upcoming_birthdays_weekend_rollforward
    (today : Date) (days : Nat) (book : Book) (m : List (String × String))
    (name : String) (r : Record) (b occ : Date)
    (hnd : (book.map Prod.fst).Nodup)
    (hok : get_upcoming_birthdays today days book = .ok m)
    (hget : dictGet name book = some r)
    (hb : r.birthday = some b)
    (hocc : nextOccurrence today b = some occ)
    (hwin : (occ.ordinal : Int) - (today.ordinal : Int) ≤ (days : Int)) :
    bdaysGet name m = some ((occ.addDays
      (if occ.weekday == 5 then 2 else if occ.weekday == 6 then 1 else 0)).formatDMY) := by
  have hent : upcomingEntry today days r = .ok (some ((occ.addDays
      (if occ.weekday == 5 then 2 else if occ.weekday == 6 then 1 else 0)).formatDMY)) := by
    simp only [upcomingEntry, hb, hocc]
    have hnotgt : ¬ ((occ.ordinal : Int) - (today.ordinal : Int) > (days : Int)) :=
      not_lt.mpr hwin
    rw [if_neg hnotgt]
    by_cases h5 : occ.weekday = 5
    · simp [h5]
    · by_cases h6 : occ.weekday = 6
      · simp [h6]
      · have hlt : occ.weekday < 5 := by
          have h7 : occ.weekday < 7 := Nat.mod_lt _ (by norm_num)
          omega
        simp [hlt, h5, h6, Date.addDays]
  exact bdaysGet_of_entry today days book m name r _ hnd hok hget hent

/-- Witness for C4: today is Monday 10.06.2024 and the birthday
occurrence 15.06.2024 is a Saturday, so the reminder is shifted to
Monday "17.06.2024". -/
theorem upcoming_birthdays_weekend_rollforward_witness :
    (([("Sat", Record.mk "Sat" [] (some ⟨2000, 6, 15⟩))] : Book).map Prod.fst).Nodup ∧
    get_upcoming_birthdays ⟨2024, 6, 10⟩ 7 [("Sat", ⟨"Sat", [], some ⟨2000, 6, 15⟩⟩)] =
      .ok [("Sat", "17.06.2024")] ∧
    dictGet "Sat" [("Sat", ⟨"Sat", [], some ⟨2000, 6, 15⟩⟩)] =
      some ⟨"Sat", [], some ⟨2000, 6, 15⟩⟩ ∧
    (Record.mk "Sat" [] (some ⟨2000, 6, 15⟩)).birthday = some ⟨2000, 6, 15⟩ ∧
    nextOccurrence ⟨2024, 6, 10⟩ ⟨2000, 6, 15⟩ = some ⟨2024, 6, 15⟩ ∧
    ((Date.mk 2024 6 15).ordinal : Int) - ((Date.mk 2024 6 10).ordinal : Int) ≤ (7 : Int) ∧
    bdaysGet "Sat" [("Sat", "17.06.2024")] =
      some (((Date.mk 2024 6 15).addDays
        (if (Date.mk 2024 6 15).weekday == 5 then 2
          else if (Date.mk 2024 6 15).weekday == 6 then 1 else 0)).formatDMY) :=
  ⟨by decide, rfl, by decide, rfl, by decide, by decide,
    upcoming_birthdays_weekend_rollforward ⟨2024, 6, 10⟩ 7
      [("Sat", ⟨"Sat", [], some ⟨2000, 6, 15⟩⟩)] [("Sat", "17.06.2024")] "Sat"
      ⟨"Sat", [], some ⟨2000, 6, 15⟩⟩ ⟨2000, 6, 15⟩ ⟨2024, 6, 15⟩
      (by decide) rfl (by decide) rfl (by decide) (by decide)⟩

/-- C5. Membership in the result mapping of `get_upcoming_birthdays`:
under a successful run, a record with no birthday contributes no
entry; a record with a birthday whose next occurrence (this year's
month/day, or next year's when this year's is strictly before today —
`nextOccurrence`) is `occ` is excluded exactly when `occ` is more than
`days` days after today. -/
theorem upcoming_birthdays_window_membership
    (today : Date) (days : Nat) (book : Book) (m : List (String × String))
    (name : String) (r : Record) (b occ : Date)
    (hnd : (book.map Prod.fst).Nodup)
    (hok : get_upcoming_birthdays today days book = .ok m)
    (hget : dictGet name book = some r) :
    (r.birthday = none → bdaysGet name m = none) ∧
    (r.birthday = some b → nextOccurrence today b = some occ →
      (bdaysGet name m = none ↔
        (occ.ordinal : Int) - (today.ordinal : Int) > (days : Int))) := by
  obtain ⟨t, ht⟩ := upcomingEntry_ok_of_book_ok today days book m name r hok hget
  have hbg : bdaysGet name m = t := bdaysGet_of_entry today days book m name r t hnd hok hget ht
  constructor
  · intro hnone
    rw [hbg]
    simp only [upcomingEntry, hnone] at ht
    exact (Except.ok.inj ht).symm
  · intro hbd hocc
    rw [hbg]
    simp only [upcomingEntry, hbd, hocc] at ht
    by_cases hgt : (occ.ordinal : Int) - (today.ordinal : Int) > (days : Int)
    · rw [if_pos hgt] at ht
      have hn : t = none := (Except.ok.inj ht).symm
      subst hn
      simp [hgt]
    · rw [if_neg hgt] at ht
      have hs : ∃ s, t = some s := by
        by_cases h5 : occ.weekday < 5
        · rw [if_pos h5] at ht
          exact ⟨_, (Except.ok.inj ht).symm⟩
        · rw [if_neg h5] at ht
          by_cases h5b : (occ.weekday == 5) = true
          · rw [if_pos h5b] at ht
            exact ⟨_, (Except.ok.inj ht).symm⟩
          · rw [if_neg h5b] at ht
            exact ⟨_, (Except.ok.inj ht).symm⟩
      obtain ⟨s, hs⟩ := hs
      subst hs
      simp [hgt]

/-- Witness for C5: a birthday whose next occurrence (01.08.2024) is
52 days after today (10.06.2024) is excluded from the result mapping
with `withinDays = 7`. -/
theorem upcoming_birthdays_window_membership_witness :
    (([("Far", Record.mk "Far" [] (some ⟨2000, 8, 1⟩))] : Book).map Prod.fst).Nodup ∧
    get_upcoming_birthdays ⟨2024, 6, 10⟩ 7 [("Far", ⟨"Far", [], some ⟨2000, 8, 1⟩⟩)] =
      .ok [] ∧
    dictGet "Far" [("Far", ⟨"Far", [], some ⟨2000, 8, 1⟩⟩)] =
      some ⟨"Far", [], some ⟨2000, 8, 1⟩⟩ ∧
    (((Record.mk "Far" [] (some ⟨2000, 8, 1⟩)).birthday = none →
        bdaysGet "Far" [] = none) ∧
      ((Record.mk "Far" [] (some ⟨2000, 8, 1⟩)).birthday = some ⟨2000, 8, 1⟩ →
        nextOccurrence ⟨2024, 6, 10⟩ ⟨2000, 8, 1⟩ = some ⟨2024, 8, 1⟩ →
        (bdaysGet "Far" [] = none ↔
          ((Date.mk 2024 8 1).ordinal : Int) - ((Date.mk 2024 6 10).ordinal : Int) >
            (7 : Int)))) :=
  ⟨by decide, rfl, by decide,
    upcoming_birthdays_window_membership ⟨2024, 6, 10⟩ 7
      [("Far", ⟨"Far", [], some ⟨2000, 8, 1⟩⟩)] [] "Far" ⟨"Far", [], some ⟨2000, 8, 1⟩⟩
      ⟨2000, 8, 1⟩ ⟨2024, 8, 1⟩ (by decide) rfl (by decide)⟩
